import Mathlib

/-!
# Verification of the `sysmon` monitoring core

Shallow embedding of `sysmon/monitor.py` (threshold evaluation, sustained-
condition tracking, watched-process aggregation, idle-service evaluation and
the Docker created-at parser) together with proofs of the specified
properties.

Modelling conventions:
* Python `dict`s are association lists `List (String × α)` with unique keys;
  `d[k]`/`d.get(k)` is `alookup`, `d[k] = v` is `aset`, `d.pop(k, None)` is
  `aerase`, `d.setdefault` is expanded at the use site.
* Clock reads (`time.monotonic()`, `time.time()`, `datetime.now(UTC)`) are
  passed in as explicit parameters of type `ℚ` (seconds).
* Python floats are modelled as `ℚ`; `int(x)` is truncation toward zero
  (`pyInt`); configuration integers are `ℤ` or are embedded into `ℚ` where
  they only ever meet floats in comparisons.
* The process table and container list are passed in as pure data (in the
  code they come from `psutil` / `docker ps`); a process that vanishes
  mid-scan is simply absent from the table.
-/

namespace Sysmon

/-- Python dict lookup `d.get(k)` on an association list. -/
def alookup {α : Type} (k : String) : List (String × α) → Option α
  | [] => none
  | kv :: rest => if kv.1 = k then some kv.2 else alookup k rest

/-- Python dict assignment `d[k] = v`: overwrite the binding in place if the
key is present, otherwise append a new binding at the end. -/
def aset {α : Type} (k : String) (v : α) : List (String × α) → List (String × α)
  | [] => [(k, v)]
  | kv :: rest => if kv.1 = k then (k, v) :: rest else kv :: aset k v rest

/-- Python dict removal `d.pop(k, None)`: drop the binding for `k`. -/
def aerase {α : Type} (k : String) (l : List (String × α)) : List (String × α) :=
  l.filter (fun kv => kv.1 ≠ k)

/-- `int(x)` in Python: truncation of a rational toward zero. -/
def pyInt (q : ℚ) : ℤ := if 0 ≤ q then ⌊q⌋ else ⌈q⌉

/-- Python `a % b` on floats for `b > 0` (result has the sign of `b`). -/
def pyMod (a b : ℚ) : ℚ := a - b * ⌊a / b⌋

/-! ## SustainedTracker (`monitor.py` lines 62–75) -/

/-- `SustainedTracker`: maps a key to the monotonic timestamp at which its
condition first became true. -/
structure SustainedTracker where
  exceeded_since : List (String × ℚ)
deriving DecidableEq, Repr

/-- `SustainedTracker.check(key, is_exceeded, required_seconds)`.

```python
now = time.monotonic()
if is_exceeded:
    self.exceeded_since.setdefault(key, now)
    return (now - self.exceeded_since[key]) >= required_seconds
else:
    self.exceeded_since.pop(key, None)
    return False
```

`now` (the monotonic clock read) is an explicit parameter; the return value
and the updated tracker are returned as a pair.  `setdefault` followed by the
indexed read is expanded: when the key is present the dict is unchanged and
the stored start is read back; when absent, `now` is stored and read back. -/
def SustainedTracker.check (t : SustainedTracker) (now : ℚ) (key : String)
    (is_exceeded : Bool) (required_seconds : ℚ) : Bool × SustainedTracker :=
  if is_exceeded then
    match alookup key t.exceeded_since with
    | some start => (decide ((now - start) ≥ required_seconds), t)
    | none =>
        (decide ((now - now) ≥ required_seconds),
         ⟨t.exceeded_since ++ [(key, now)]⟩)
  else
    (false, ⟨aerase key t.exceeded_since⟩)

/-! ## Threshold checking (`monitor.py` lines 137–186) -/

/-- The `Alert` dataclass. -/
structure Alert where
  metric : String
  severity : String
  value : ℚ
  threshold : ℚ
  unit : String
deriving DecidableEq, Repr

/-- A per-metric thresholds entry `{"warning": w, "critical": c}`. -/
structure ThresholdSpec where
  warning : ℚ
  critical : ℚ
deriving DecidableEq, Repr

/-- Dict access `thresh[severity]` (only ever called with `"critical"` or
`"warning"`). -/
def ThresholdSpec.get (t : ThresholdSpec) (sev : String) : ℚ :=
  if sev = "critical" then t.critical else t.warning

/-- A per-metric sustained entry `{"warning": w, "critical": c}` (integer
seconds in the config, embedded into `ℚ` since they are only compared with
float durations). -/
structure SustainedSpec where
  warning : ℚ
  critical : ℚ
deriving DecidableEq, Repr

/-- Dict access `sustained[metric][severity]`. -/
def SustainedSpec.get (s : SustainedSpec) (sev : String) : ℚ :=
  if sev = "critical" then s.critical else s.warning

/-- The local `units` dict of `check_thresholds`, with `units.get(metric, "")`
applied. -/
def unitsOf (metric : String) : String :=
  (alookup metric
    [("cpu_percent", "%"), ("iowait", "%"), ("ram_percent", "%"),
     ("swap_percent", "%"), ("disk_percent", "%"), ("cpu_temp", "°C"),
     ("load_per_cpu", "x")]).getD ""

/-- A watchlist entry.  `idle_minutes` and `active_cpu` are optional keys read
with `cfg.get("idle_minutes", 0)` / `cfg.get("active_cpu", 0)`. -/
structure WatchCfg where
  label : String
  idle_minutes : Option ℤ
  active_cpu : Option ℚ
deriving DecidableEq, Repr

/-- The empty dict `{}` produced by `watchlist.get(wp.key, {})` on a miss. -/
def WatchCfg.empty : WatchCfg := ⟨"", none, none⟩

/-- The module-level configuration globals of `monitor.py`
(`thresholds`, `sustained`, `alert_cooldown`, `watchlist`,
`docker_idle_minutes`). -/
structure MonitorConfig where
  thresholds : List (String × ThresholdSpec)
  sustained : List (String × SustainedSpec)
  alert_cooldown : ℚ
  watchlist : List (String × WatchCfg)
  docker_idle_minutes : ℤ

/-- The inner `for severity in ("critical", "warning")` loop of
`check_thresholds` for one metric: walks the severity list, threading the
tracker; on the first severity whose gate is true it appends one alert and
breaks (returns). -/
def checkSeverities (sustainedCfg : List (String × SustainedSpec)) (now : ℚ)
    (metric : String) (value : ℚ) (thresh : ThresholdSpec) :
    List String → SustainedTracker → List Alert × SustainedTracker
  | [], tr => ([], tr)
  | sev :: rest, tr =>
      let limit := thresh.get sev
      let exceeded := decide (value ≥ limit)
      match alookup metric sustainedCfg with
      | some sus =>
          let required := sus.get sev
          let res := tr.check now (metric ++ ":" ++ sev) exceeded required
          if res.1 then
            ([⟨metric, sev, value, limit, unitsOf metric⟩], res.2)
          else
            checkSeverities sustainedCfg now metric value thresh rest res.2
      | none =>
          if exceeded then
            ([⟨metric, sev, value, limit, unitsOf metric⟩], tr)
          else
            checkSeverities sustainedCfg now metric value thresh rest tr

/-- `check_thresholds(metrics, tracker)`: the outer `for metric, value in
metrics.items()` loop.  A `None` value or a missing thresholds entry skips
the metric; otherwise the severity loop runs and its alerts (at most one)
are appended in metric order. -/
def check_thresholds (cfg : MonitorConfig) (now : ℚ) :
    List (String × Option ℚ) → SustainedTracker → List Alert × SustainedTracker
  | [], tr => ([], tr)
  | mv :: rest, tr =>
      match mv.2 with
      | none => check_thresholds cfg now rest tr
      | some value =>
          match alookup mv.1 cfg.thresholds with
          | none => check_thresholds cfg now rest tr
          | some thresh =>
              let r := checkSeverities cfg.sustained now mv.1 value thresh
                ["critical", "warning"] tr
              let r2 := check_thresholds cfg now rest r.2
              (r.1 ++ r2.1, r2.2)

/-! ## Watched-process scan (`monitor.py` lines 346–405) -/

/-- One row of the process table (`proc.info`): `name` may be `None`,
`cpu_percent` may be absent or `None`. -/
structure ProcInfo where
  name : Option String
  create_time : ℚ
  cpu_percent : Option ℚ
deriving DecidableEq, Repr

/-- `proc.info.get("cpu_percent", 0.0) or 0.0`: both a missing key and a
`None` (and a literal `0.0`) yield `0`. -/
def ProcInfo.cpuEff (p : ProcInfo) : ℚ := p.cpu_percent.getD 0

/-- The `WatchedProcess` dataclass. -/
structure WatchedProcess where
  key : String
  label : String
  age_str : String
  age_minutes : ℚ
  cpu_percent : ℚ
deriving DecidableEq, Repr

/-- Python substring containment `pat in s` on `List Char`. -/
def containsSub (pat : List Char) : List Char → Bool
  | [] => pat.isEmpty
  | c :: rest => pat.isPrefixOf (c :: rest) || containsSub pat rest

/-- `(proc.info["name"] or "").lower()` (Python strings are sequences of
code points, so `List Char`; `.lower()` on the ASCII names at issue is
`Char.toLower`). -/
def lowerName (p : ProcInfo) : List Char :=
  (p.name.getD "").data.map Char.toLower

/-- The inner `for watch_key, cfg in watchlist.items()` loop with its
`break`: the first watchlist entry whose key is a substring of the
(lower-cased) process name. -/
def firstMatch (watchlist : List (String × WatchCfg)) (pname : List Char) :
    Option (String × WatchCfg) :=
  watchlist.find? (fun kv => containsSub kv.1.data pname)

/-- The watchlist key a process is counted against (first matching key wins). -/
def assignedKey (watchlist : List (String × WatchCfg)) (p : ProcInfo) :
    Option String :=
  (firstMatch watchlist (lowerName p)).map Prod.fst

/-- One `accum` entry of `scan_watched_processes`:
`{"cfg": ..., "create_time": ..., "cpu_total": ...}`. -/
structure ScanAccum where
  cfg : WatchCfg
  create_time : ℚ
  cpu_total : ℚ
deriving DecidableEq, Repr

/-- Processing one process of the scan loop.  On a first match for a key the
code initialises the entry with the process's own `create_time` and zero CPU
and then immediately applies the unconditional `min` (a no-op) and CPU
increment; the two steps are collapsed here. -/
def scanStep (watchlist : List (String × WatchCfg))
    (accum : List (String × ScanAccum)) (p : ProcInfo) :
    List (String × ScanAccum) :=
  match firstMatch watchlist (lowerName p) with
  | none => accum
  | some kv =>
      match alookup kv.1 accum with
      | none => accum ++ [(kv.1, ⟨kv.2, p.create_time, p.cpuEff⟩)]
      | some e =>
          aset kv.1 ⟨e.cfg, min e.create_time p.create_time,
            e.cpu_total + p.cpuEff⟩ accum

/-- The `for proc in psutil.process_iter(...)` loop, folding `scanStep` over
the process table. -/
def scanAccum (watchlist : List (String × WatchCfg)) :
    List ProcInfo → List (String × ScanAccum) → List (String × ScanAccum)
  | [], accum => accum
  | p :: rest, accum => scanAccum watchlist rest (scanStep watchlist accum p)

/-- Building one `WatchedProcess` from an `accum` entry:
`age_minutes = (now - create_time) / 60`,
`hrs, mins = int(age_minutes // 60), int(age_minutes % 60)`. -/
def mkWatched (now : ℚ) (kv : String × ScanAccum) : WatchedProcess :=
  let age_minutes := (now - kv.2.create_time) / 60
  let hrs := ⌊age_minutes / 60⌋
  let mins := pyInt (pyMod age_minutes 60)
  let age_str := if hrs ≠ 0 then s!"{hrs}h {mins}m" else s!"{mins}m"
  ⟨kv.1, kv.2.cfg.label, age_str, age_minutes, kv.2.cpu_total⟩

/-- `scan_watched_processes()`: single pass over the process table, then one
`WatchedProcess` per accumulated key, in accumulation order. -/
def scan_watched_processes (watchlist : List (String × WatchCfg)) (now : ℚ)
    (procs : List ProcInfo) : List WatchedProcess :=
  (scanAccum watchlist procs []).map (mkWatched now)

/-- The processes counted against key `k` (specification-side view of the
first-match-wins assignment). -/
def matchingProcs (watchlist : List (String × WatchCfg))
    (procs : List ProcInfo) (k : String) : List ProcInfo :=
  procs.filter (fun p => assignedKey watchlist p = some k)

/-- Minimum `create_time` of a (nonempty) list of processes. -/
def minCT : List ProcInfo → ℚ
  | [] => 0
  | p :: ps => ps.foldl (fun m q => min m q.create_time) p.create_time

/-- Sum of effective CPU percentages of a list of processes. -/
def sumCpu (l : List ProcInfo) : ℚ := (l.map ProcInfo.cpuEff).sum

/-- Invariant of the scan loop: the accumulator has distinct keys, holds an
entry exactly for the keys some seen process was counted against, and each
entry carries the oldest creation time and the CPU sum of the processes
counted against its key. -/
def ScanInv (watchlist : List (String × WatchCfg)) (seen : List ProcInfo)
    (accum : List (String × ScanAccum)) : Prop :=
  ((accum.map Prod.fst).Nodup) ∧
  (∀ k, alookup k accum = none → matchingProcs watchlist seen k = []) ∧
  (∀ k e, alookup k accum = some e →
     matchingProcs watchlist seen k ≠ [] ∧
     e.create_time = minCT (matchingProcs watchlist seen k) ∧
     e.cpu_total = sumCpu (matchingProcs watchlist seen k))

/-! ## Docker created-at parsing (`monitor.py` lines 303–320) -/

/-- Gregorian leap year. -/
def isLeap (y : ℕ) : Bool := (y % 4 = 0 ∧ y % 100 ≠ 0) ∨ y % 400 = 0

/-- Days in a month (for `datetime`'s day-of-month validation). -/
def daysInMonth (y m : ℕ) : ℕ :=
  if m = 2 then (if isLeap y then 29 else 28)
  else if m = 4 ∨ m = 6 ∨ m = 9 ∨ m = 11 then 30
  else 31

/-- Days from 1970-01-01 to `y-m-d` (proleptic Gregorian, civil-days
algorithm), for `y ≥ 1`. -/
def daysFromCivil (y m d : ℕ) : ℤ :=
  let y2 := if m ≤ 2 then y - 1 else y
  let era := y2 / 400
  let yoe := y2 % 400
  let mp := (m + 9) % 12
  let doy := (153 * mp + 2) / 5 + d - 1
  let doe := yoe * 365 + yoe / 4 - yoe / 100 + doy
  (era : ℤ) * 146097 + (doe : ℤ) - 719468

/-- Python `str.strip()`: drop leading and trailing whitespace. -/
def trimChars (l : List Char) : List Char :=
  ((l.dropWhile Char.isWhitespace).reverse.dropWhile Char.isWhitespace).reverse

/-- Python `s.split(sep)` for a single-character separator: every occurrence
splits, adjacent separators produce empty pieces. -/
def splitChar (sep : Char) : List Char → List (List Char)
  | [] => [[]]
  | c :: rest =>
      match splitChar sep rest with
      | [] => [[c]]
      | g :: gs => if c = sep then [] :: g :: gs else (c :: g) :: gs

/-- A single decimal digit. -/
def charDigit (c : Char) : Option ℕ :=
  if c.isDigit then some (c.toNat - 48) else none

/-- Value of an all-digit numeral; `none` on a non-digit. -/
def natFromDigits : List Char → ℕ → Option ℕ
  | [], acc => some acc
  | c :: cs, acc =>
      match charDigit c with
      | none => none
      | some d => natFromDigits cs (10 * acc + d)

/-- A nonempty all-digit numeral. -/
def parseNatDigits (l : List Char) : Option ℕ :=
  if l.isEmpty then none else natFromDigits l 0

/-- A numeric field of at most `maxLen` digits whose value lies in
`[lo, hi]`. -/
def parseField (lo hi maxLen : ℕ) (l : List Char) : Option ℕ :=
  match parseNatDigits l with
  | none => none
  | some n => if l.length ≤ maxLen ∧ lo ≤ n ∧ n ≤ hi then some n else none

/-- A four-digit year (`%Y`). -/
def parseYear (l : List Char) : Option ℕ :=
  match parseNatDigits l with
  | none => none
  | some n => if l.length = 4 then some n else none

/-- A UTC offset `±HHMM` or `±HH:MM` (`%z`), in seconds.  `datetime` requires
the offset to be strictly less than 24 hours in magnitude. -/
def parseOffset (s : List Char) : Option ℤ :=
  match s with
  | sign :: h1 :: h2 :: rest =>
      if sign = '+' ∨ sign = '-' then
        match charDigit h1, charDigit h2 with
        | some d1, some d2 =>
            let hh := 10 * d1 + d2
            let mmOf : List Char → Option ℕ := fun cs =>
              match cs with
              | [m1, m2] =>
                  match charDigit m1, charDigit m2 with
                  | some e1, some e2 =>
                      let mm := 10 * e1 + e2
                      if mm ≤ 59 then some mm else none
                  | _, _ => none
              | _ => none
            let mins : Option ℕ :=
              match rest with
              | ':' :: rest2 => mmOf rest2
              | _ => mmOf rest
            match mins with
            | none => none
            | some mm =>
                if hh ≤ 23 then
                  let secs : ℤ := (hh : ℤ) * 3600 + (mm : ℤ) * 60
                  some (if sign = '-' then -secs else secs)
                else none
        | _, _ => none
      else none
  | _ => none

/-- `datetime.strptime(ts_str, "%Y-%m-%d %H:%M:%S %z")` followed by epoch
conversion: on success, the POSIX timestamp (seconds) of the parsed aware
datetime; on any parse/validation failure (the `ValueError` branch), `none`.
Seconds 60–61 and out-of-range days of month are rejected, as `datetime`
rejects them. -/
def parseDockerTs (s : List Char) : Option ℤ :=
  match splitChar ' ' s with
  | [dateS, timeS, offS] =>
      match splitChar '-' dateS, splitChar ':' timeS with
      | [yS, mS, dS], [hS, miS, sS] =>
          match parseYear yS, parseField 1 12 2 mS, parseField 1 31 2 dS,
              parseField 0 23 2 hS, parseField 0 59 2 miS,
              parseField 0 59 2 sS, parseOffset offS with
          | some y, some m, some d, some h, some mi, some sec, some off =>
              if d ≤ daysInMonth y m then
                some (daysFromCivil y m d * 86400 + (h : ℤ) * 3600 +
                  (mi : ℤ) * 60 + (sec : ℤ) - off)
              else none
          | _, _, _, _, _, _, _ => none
      | _, _ => none
  | _ => none

/-- `_parse_docker_created_at(created_at)`:

```python
if not created_at:
    return 0
try:
    ts_str = created_at[:25].strip()
    created = datetime.strptime(ts_str, "%Y-%m-%d %H:%M:%S %z")
    delta = datetime.now(UTC) - created
    return max(0, int(delta.total_seconds() / 60))
except (ValueError, IndexError):
    return 0
```

`now` (the wall-clock read `datetime.now(UTC)`, epoch seconds) is an explicit
parameter; the caught-exception branch is the `none` case of `parseDockerTs`. -/
def _parse_docker_created_at (now : ℚ) (created_at : String) : ℤ :=
  if created_at = "" then 0
  else
    match parseDockerTs (trimChars (created_at.data.take 25)) with
    | none => 0
    | some created => max 0 (pyInt ((now - (created : ℚ)) / 60))

/-! ## Idle-service evaluation (`monitor.py` lines 323–461) -/

/-- `_format_minutes(minutes)`. -/
def _format_minutes (minutes : ℤ) : String :=
  if minutes < 60 then s!"{minutes}m"
  else
    let hours := minutes / 60
    if hours < 24 then s!"{hours}h {minutes % 60}m"
    else
      let days := hours / 24
      let remaining_hours := hours % 24
      s!"{days}d {remaining_hours}h"

/-- A row of `_get_running_docker_containers()`. -/
structure Container where
  name : String
  image : String
  status : String
  created_at : String
deriving DecidableEq, Repr

/-- The `ServiceAlert` dataclass. -/
structure ServiceAlert where
  kind : String
  name : String
  label : String
  detail : String
  age_str : String
deriving DecidableEq, Repr

/-- The body of the container loop of `check_idle_services` for one
container, acting on the state `(results, last_alerted)`. -/
def idleDockerStep (cfg : MonitorConfig) (now : ℚ)
    (st : List ServiceAlert × List (String × ℚ)) (c : Container) :
    List ServiceAlert × List (String × ℚ) :=
  let uptime := _parse_docker_created_at now c.created_at
  if uptime ≥ cfg.docker_idle_minutes then
    let key := "docker:" ++ c.name
    if now - ((alookup key st.2).getD 0) ≥ cfg.alert_cooldown then
      let age := _format_minutes uptime
      (st.1 ++ [⟨"docker", c.name, "Docker: " ++ c.name,
        "Running for " ++ age ++ " (" ++ c.image ++ ")", age⟩],
       aset key now st.2)
    else st
  else st

/-- The body of the watched-process loop of `check_idle_services` for one
`WatchedProcess`, acting on the state `(results, last_alerted)`. -/
def idleProcStep (cfg : MonitorConfig) (now : ℚ)
    (st : List ServiceAlert × List (String × ℚ)) (wp : WatchedProcess) :
    List ServiceAlert × List (String × ℚ) :=
  let wcfg := (alookup wp.key cfg.watchlist).getD WatchCfg.empty
  let idle_min := wcfg.idle_minutes.getD 0
  if idle_min ≤ 0 then st
  else if wp.age_minutes ≥ (idle_min : ℚ) then
    let active_cpu := wcfg.active_cpu.getD 0
    if active_cpu > 0 ∧ wp.cpu_percent ≥ active_cpu then st
    else
      let alert_key := "proc:" ++ wp.key
      if now - ((alookup alert_key st.2).getD 0) ≥ cfg.alert_cooldown then
        (st.1 ++ [⟨"process", wp.key, "Still running: " ++ wp.label,
          "Open for " ++ wp.age_str, wp.age_str⟩],
         aset alert_key now st.2)
      else st
  else st

/-- `check_idle_services(last_alerted, watched, containers)`: the container
loop (guarded by `docker_idle_minutes > 0`) followed by the watched-process
loop.  Returns the emitted alerts together with the updated (in the code:
mutated in place) cooldown ledger. -/
def check_idle_services (cfg : MonitorConfig) (now : ℚ)
    (last_alerted : List (String × ℚ)) (watched : List WatchedProcess)
    (containers : List Container) :
    List ServiceAlert × List (String × ℚ) :=
  let st0 : List ServiceAlert × List (String × ℚ) := ([], last_alerted)
  let st1 :=
    if cfg.docker_idle_minutes > 0 then
      containers.foldl (idleDockerStep cfg now) st0
    else st0
  watched.foldl (idleProcStep cfg now) st1

/-! ## Association-list lemmas -/

theorem alookup_nil {α : Type} (k : String) :
    alookup k ([] : List (String × α)) = none := rfl

theorem alookup_cons {α : Type} (k : String) (kv : String × α)
    (rest : List (String × α)) :
    alookup k (kv :: rest) = if kv.1 = k then some kv.2 else alookup k rest := rfl

theorem alookup_aset_self {α : Type} (k : String) (v : α) :
    ∀ l : List (String × α), alookup k (aset k v l) = some v := by
  intro l
  induction l with
  | nil => simp [aset, alookup]
  | cons kv rest ih =>
      by_cases h : kv.1 = k
      · simp [aset, alookup, h]
      · simp [aset, alookup, h, ih]

theorem alookup_aset_ne {α : Type} (k k' : String) (v : α) (h : k' ≠ k) :
    ∀ l : List (String × α), alookup k (aset k' v l) = alookup k l := by
  intro l
  induction l with
  | nil => simp [aset, alookup, h]
  | cons kv rest ih =>
      by_cases hk : kv.1 = k'
      · simp [aset, alookup, hk, h, ih]
      · simp [aset, alookup, hk, ih]

theorem alookup_aerase_self {α : Type} (k : String) (l : List (String × α)) :
    alookup k (aerase k l) = none := by
  induction l with
  | nil => rfl
  | cons kv rest ih =>
      by_cases h : kv.1 = k
      · simpa [aerase, alookup, h] using ih
      · simpa [aerase, alookup, h] using ih

theorem alookup_append {α : Type} (k : String) (l₁ l₂ : List (String × α)) :
    alookup k (l₁ ++ l₂) = (alookup k l₁).elim (alookup k l₂) some := by
  induction l₁ with
  | nil => simp [alookup]
  | cons kv rest ih =>
      by_cases h : kv.1 = k <;> simp [alookup, h, ih]

theorem alookup_eq_none_iff {α : Type} (k : String) (l : List (String × α)) :
    alookup k l = none ↔ k ∉ l.map Prod.fst := by
  induction l with
  | nil => simp [alookup]
  | cons kv rest ih =>
      by_cases h : kv.1 = k
      · simp [alookup, h]
      · simp [alookup, h, ih, Ne.symm h]

theorem alookup_of_mem_nodup {α : Type} {l : List (String × α)}
    {kv : String × α} (hd : (l.map Prod.fst).Nodup) (hm : kv ∈ l) :
    alookup kv.1 l = some kv.2 := by
  induction l with
  | nil => cases hm
  | cons kv' rest ih =>
      rcases List.mem_cons.mp hm with h | h
      · subst h; simp [alookup]
      · have hne : kv'.1 ≠ kv.1 := by
          intro he
          exact (List.nodup_cons.mp hd).1 (he ▸ List.mem_map_of_mem Prod.fst h)
        simp [alookup, hne, ih (List.nodup_cons.mp hd).2 h]

theorem map_fst_aset_of_lookup {α : Type} (k : String) (v : α) :
    ∀ (l : List (String × α)) (e : α), alookup k l = some e →
      (aset k v l).map Prod.fst = l.map Prod.fst := by
  intro l
  induction l with
  | nil => intro e h; cases h
  | cons kv rest ih =>
      intro e h
      by_cases hk : kv.1 = k
      · simp [aset, hk]
      · simp only [alookup, hk, if_false] at h
        simp [aset, hk, ih e h]

/-! ## C1 and C2: SustainedTracker -/

/-- C1: on a `true` call, an absent key is recorded with start `now` and the
call returns `0 ≥ required_seconds` (so `required_seconds = 0` fires
immediately); a present key returns `now - start ≥ required_seconds` and the
tracker state — in particular the recorded start — is left unchanged. -/
theorem C1_sustained_check_true (t : SustainedTracker) (now : ℚ) (key : String)
    (required_seconds : ℚ) :
    (alookup key t.exceeded_since = none →
      (t.check now key true required_seconds).1
          = decide ((0 : ℚ) ≥ required_seconds) ∧
      alookup key (t.check now key true required_seconds).2.exceeded_since
          = some now) ∧
    (∀ start, alookup key t.exceeded_since = some start →
      (t.check now key true required_seconds).1
          = decide (now - start ≥ required_seconds) ∧
      (t.check now key true required_seconds).2 = t) := by
  constructor
  · intro h
    constructor
    · simp [SustainedTracker.check, h]
    · simp [SustainedTracker.check, h, alookup_append, alookup]
  · intro start h
    simp [SustainedTracker.check, h]

/-- Witness for C1: a fresh key with `required_seconds = 0` fires at once and
records `now = 5`; a key recorded at `2` and rechecked at `5` with
`required_seconds = 3` reports `5 - 2 ≥ 3` without touching the state. -/
theorem C1_sustained_check_true_witness :
    (((⟨[]⟩ : SustainedTracker).check 5 "k" true 0).1
        = decide ((0 : ℚ) ≥ 0) ∧
      alookup "k" ((⟨[]⟩ : SustainedTracker).check 5 "k" true 0).2.exceeded_since
        = some 5) ∧
    (((⟨[("k", 2)]⟩ : SustainedTracker).check 5 "k" true 3).1
        = decide ((5 : ℚ) - 2 ≥ 3) ∧
      ((⟨[("k", 2)]⟩ : SustainedTracker).check 5 "k" true 3).2
        = (⟨[("k", 2)]⟩ : SustainedTracker)) :=
  ⟨(C1_sustained_check_true ⟨[]⟩ 5 "k" 0).1 rfl,
   (C1_sustained_check_true ⟨[("k", 2)]⟩ 5 "k" 3).2 2 rfl⟩

/-- C2: a `false` call returns `false` and removes the key from the tracker
state, regardless of prior state. -/
theorem C2_sustained_check_false (t : SustainedTracker) (now : ℚ) (key : String)
    (n : ℚ) :
    (t.check now key false n).1 = false ∧
    alookup key (t.check now key false n).2.exceeded_since = none := by
  refine ⟨?_, ?_⟩
  · simp [SustainedTracker.check]
  · simp [SustainedTracker.check, alookup_aerase_self]

/-! ## C3 and C4: threshold evaluation -/

/-- The severity loop emits no alert or exactly one, and any emitted alert
carries the metric being evaluated. -/
theorem checkSeverities_shape (sus : List (String × SustainedSpec)) (now : ℚ)
    (metric : String) (value : ℚ) (thresh : ThresholdSpec) :
    ∀ (sevs : List String) (tr : SustainedTracker),
      (checkSeverities sus now metric value thresh sevs tr).1 = [] ∨
      ∃ a : Alert,
        (checkSeverities sus now metric value thresh sevs tr).1 = [a] ∧
        a.metric = metric := by
  intro sevs
  induction sevs with
  | nil => intro tr; left; rfl
  | cons sev rest ih =>
      intro tr
      unfold checkSeverities
      cases h : alookup metric sus with
      | none =>
          by_cases hex : value ≥ thresh.get sev
          · right
            exact ⟨⟨metric, sev, value, thresh.get sev, unitsOf metric⟩,
              by simp [h, hex], rfl⟩
          · simpa [h, hex] using ih tr
      | some s =>
          by_cases hb : (tr.check now (metric ++ ":" ++ sev)
              (decide (value ≥ thresh.get sev)) (s.get sev)).1 = true
          · right
            exact ⟨⟨metric, sev, value, thresh.get sev, unitsOf metric⟩,
              by simp [h, hb], rfl⟩
          · simpa [h, hb] using
              ih (tr.check now (metric ++ ":" ++ sev)
                (decide (value ≥ thresh.get sev)) (s.get sev)).2

/-- With distinct metric keys, a snapshot entry contributes at most one to
the per-metric alert count. -/
theorem countP_keys_le_one (m : String) :
    ∀ metrics : List (String × Option ℚ),
      (metrics.map Prod.fst).Nodup →
      metrics.countP (fun p => decide (p.1 = m)) ≤ 1 := by
  intro metrics
  induction metrics with
  | nil => intro _; simp
  | cons mv rest ih =>
      intro hd
      have hd2 : (mv.1 :: rest.map Prod.fst).Nodup := by simpa using hd
      have hd' := List.nodup_cons.mp hd2
      rw [List.countP_cons]
      by_cases h : mv.1 = m
      · have hz : rest.countP (fun p => decide (p.1 = m)) = 0 := by
          apply List.countP_eq_zero.mpr
          intro p hp
          simp only [decide_eq_true_eq]
          intro he
          exact hd'.1 (by simpa [h, ← he] using List.mem_map_of_mem Prod.fst hp)
        simp [h, hz]
      · simp [h, ih hd'.2]

/-- Each snapshot entry contributes at most one alert for its own metric. -/
theorem check_thresholds_countP (cfg : MonitorConfig) (now : ℚ) (m : String) :
    ∀ (metrics : List (String × Option ℚ)) (tr : SustainedTracker),
      ((check_thresholds cfg now metrics tr).1.countP
          (fun a => decide (a.metric = m)))
        ≤ metrics.countP (fun p => decide (p.1 = m)) := by
  intro metrics
  induction metrics with
  | nil => intro tr; simp [check_thresholds]
  | cons mv rest ih =>
      intro tr
      rw [List.countP_cons]
      unfold check_thresholds
      cases hv : mv.2 with
      | none => exact le_trans (ih tr) (Nat.le_add_right _ _)
      | some value =>
          cases ht : alookup mv.1 cfg.thresholds with
          | none => exact le_trans (ih tr) (Nat.le_add_right _ _)
          | some thresh =>
              simp only [List.countP_append]
              have hsev := checkSeverities_shape cfg.sustained now mv.1 value
                thresh ["critical", "warning"] tr
              have h1 : ((checkSeverities cfg.sustained now mv.1 value thresh
                  ["critical", "warning"] tr).1.countP
                    (fun a => decide (a.metric = m)))
                  ≤ if decide (mv.1 = m) then 1 else 0 := by
                rcases hsev with he | ⟨a, ha, ham⟩
                · simp [he]
                · rw [ha]
                  by_cases hm : mv.1 = m
                  · simpa [hm] using List.countP_le_length
                      (p := fun a => decide (a.metric = m)) (l := [a])
                  · simp [List.countP_cons, ham, hm]
              have h2 := ih (checkSeverities cfg.sustained now mv.1 value thresh
                ["critical", "warning"] tr).2
              omega

/-- C3: threshold evaluation emits at most one alert per metric per call;
for a metric without a sustained spec whose value reaches the critical limit,
the emitted alert is the critical one (critical is evaluated first and
evaluation stops at the first qualifying severity); and on the snapshot
`{ram_percent: 96.0}` with thresholds `{warning: 85, critical: 95}` the
result is exactly one critical alert with value 96 and threshold 95. -/
theorem C3_severity_precedence :
    (∀ (cfg : MonitorConfig) (now : ℚ) (metrics : List (String × Option ℚ))
        (tr : SustainedTracker) (m : String),
        (metrics.map Prod.fst).Nodup →
        ((check_thresholds cfg now metrics tr).1.countP
            (fun a => decide (a.metric = m))) ≤ 1) ∧
    (∀ (cfg : MonitorConfig) (now : ℚ) (m : String) (v : ℚ)
        (th : ThresholdSpec) (tr : SustainedTracker),
        alookup m cfg.sustained = none →
        alookup m cfg.thresholds = some th →
        v ≥ th.critical →
        check_thresholds cfg now [(m, some v)] tr
          = ([⟨m, "critical", v, th.critical, unitsOf m⟩], tr)) ∧
    check_thresholds ⟨[("ram_percent", ⟨85, 95⟩)], [], 300, [], 60⟩ 0
        [("ram_percent", some 96)] ⟨[]⟩
      = ([⟨"ram_percent", "critical", 96, 95, "%"⟩], ⟨[]⟩) := by
  refine ⟨?_, ?_, ?_⟩
  · intro cfg now metrics tr m hd
    exact le_trans (check_thresholds_countP cfg now m metrics tr)
      (countP_keys_le_one m metrics hd)
  · intro cfg now m v th tr hsus hth hv
    simp [check_thresholds, checkSeverities, hsus, hth, ThresholdSpec.get, hv]
  · decide

/-- Witness for C3: the per-metric alert count is bounded on the scenario
snapshot, and a metric at its critical limit yields the critical alert. -/
theorem C3_severity_precedence_witness :
    ((check_thresholds ⟨[("ram_percent", ⟨85, 95⟩)], [], 300, [], 60⟩ 0
        [("ram_percent", some 96)] ⟨[]⟩).1.countP
          (fun a => decide (a.metric = "ram_percent")) ≤ 1) ∧
    check_thresholds ⟨[("cpu_percent", ⟨50, 90⟩)], [], 300, [], 60⟩ 0
        [("cpu_percent", some 95)] ⟨[]⟩
      = ([⟨"cpu_percent", "critical", 95, 90, unitsOf "cpu_percent"⟩], ⟨[]⟩) :=
  ⟨C3_severity_precedence.1 ⟨[("ram_percent", ⟨85, 95⟩)], [], 300, [], 60⟩ 0
      [("ram_percent", some 96)] ⟨[]⟩ "ram_percent" (by decide),
   C3_severity_precedence.2.1 ⟨[("cpu_percent", ⟨50, 90⟩)], [], 300, [], 60⟩ 0
      "cpu_percent" 95 ⟨50, 90⟩ ⟨[]⟩ rfl rfl (by norm_num)⟩

/-- C4: the exceedance test is inclusive (`value ≥ limit`): for a metric
without a sustained spec and a value below the critical limit, an alert is
emitted iff the value is at least the warning limit; in particular a value
exactly equal to the warning limit produces the warning alert. -/
theorem C4_boundary_inclusive :
    (∀ (cfg : MonitorConfig) (now : ℚ) (m : String) (v : ℚ)
        (th : ThresholdSpec) (tr : SustainedTracker),
        alookup m cfg.sustained = none →
        alookup m cfg.thresholds = some th →
        v < th.critical →
        ((check_thresholds cfg now [(m, some v)] tr).1 ≠ [] ↔
          v ≥ th.warning)) ∧
    (∀ (cfg : MonitorConfig) (now : ℚ) (m : String)
        (th : ThresholdSpec) (tr : SustainedTracker),
        alookup m cfg.sustained = none →
        alookup m cfg.thresholds = some th →
        th.warning < th.critical →
        check_thresholds cfg now [(m, some th.warning)] tr
          = ([⟨m, "warning", th.warning, th.warning, unitsOf m⟩], tr)) := by
  constructor
  · intro cfg now m v th tr hsus hth hv
    by_cases hw : v ≥ th.warning
    · simp [check_thresholds, checkSeverities, hsus, hth, ThresholdSpec.get,
        not_le.mpr hv, hw]
    · simp [check_thresholds, checkSeverities, hsus, hth, ThresholdSpec.get,
        not_le.mpr hv, hw]
  · intro cfg now m th tr hsus hth hwc
    simp [check_thresholds, checkSeverities, hsus, hth, ThresholdSpec.get,
      not_le.mpr hwc]

/-- Witness for C4: with thresholds `{warning: 85, critical: 95}` a value of
exactly 85 produces the warning alert, and the iff holds at value 84. -/
theorem C4_boundary_inclusive_witness :
    (((check_thresholds ⟨[("ram_percent", ⟨85, 95⟩)], [], 300, [], 60⟩ 0
        [("ram_percent", some 84)] ⟨[]⟩).1 ≠ [] ↔ (84 : ℚ) ≥ 85)) ∧
    check_thresholds ⟨[("ram_percent", ⟨85, 95⟩)], [], 300, [], 60⟩ 0
        [("ram_percent", some 85)] ⟨[]⟩
      = ([⟨"ram_percent", "warning", 85, 85, unitsOf "ram_percent"⟩], ⟨[]⟩) :=
  ⟨C4_boundary_inclusive.1 ⟨[("ram_percent", ⟨85, 95⟩)], [], 300, [], 60⟩ 0
      "ram_percent" 84 ⟨85, 95⟩ ⟨[]⟩ rfl rfl (by norm_num),
   C4_boundary_inclusive.2 ⟨[("ram_percent", ⟨85, 95⟩)], [], 300, [], 60⟩ 0
      "ram_percent" ⟨85, 95⟩ ⟨[]⟩ rfl rfl (by norm_num)⟩

/-! ## C5: cooldown gating of idle-service alerts -/

/-- The container step either leaves the state untouched or — only when the
cooldown gate against the current ledger passes — appends one docker alert
and stamps the ledger key with `now`. -/
theorem idleDockerStep_shape (cfg : MonitorConfig) (now : ℚ)
    (st : List ServiceAlert × List (String × ℚ)) (c : Container) :
    idleDockerStep cfg now st c = st ∨
    (now - ((alookup ("docker:" ++ c.name) st.2).getD 0) ≥ cfg.alert_cooldown ∧
     ∃ a : ServiceAlert, a.kind = "docker" ∧
       idleDockerStep cfg now st c
         = (st.1 ++ [a], aset ("docker:" ++ c.name) now st.2)) := by
  unfold idleDockerStep
  by_cases h1 : _parse_docker_created_at now c.created_at
      ≥ cfg.docker_idle_minutes
  · by_cases h2 : now - ((alookup ("docker:" ++ c.name) st.2).getD 0)
        ≥ cfg.alert_cooldown
    · right
      refine ⟨h2, ⟨⟨"docker", c.name, "Docker: " ++ c.name,
        "Running for "
            ++ _format_minutes (_parse_docker_created_at now c.created_at)
            ++ " (" ++ c.image ++ ")",
        _format_minutes (_parse_docker_created_at now c.created_at)⟩,
        rfl, ?_⟩⟩
      simp [h1, h2]
    · left; simp [h1, h2]
  · left; simp [h1]

/-- The watched-process step either leaves the state untouched or — only when
the cooldown gate against the current ledger passes — appends one process
alert and stamps the ledger key with `now`. -/
theorem idleProcStep_shape (cfg : MonitorConfig) (now : ℚ)
    (st : List ServiceAlert × List (String × ℚ)) (wp : WatchedProcess) :
    idleProcStep cfg now st wp = st ∨
    (now - ((alookup ("proc:" ++ wp.key) st.2).getD 0) ≥ cfg.alert_cooldown ∧
     ∃ a : ServiceAlert, a.kind = "process" ∧
       idleProcStep cfg now st wp
         = (st.1 ++ [a], aset ("proc:" ++ wp.key) now st.2)) := by
  unfold idleProcStep
  by_cases h1 : ((alookup wp.key cfg.watchlist).getD
      WatchCfg.empty).idle_minutes.getD 0 ≤ 0
  · left; simp [h1]
  · by_cases h2 : wp.age_minutes ≥
        ((((alookup wp.key cfg.watchlist).getD
          WatchCfg.empty).idle_minutes.getD 0 : ℤ) : ℚ)
    · by_cases h3 : ((alookup wp.key cfg.watchlist).getD
          WatchCfg.empty).active_cpu.getD 0 > 0 ∧
          wp.cpu_percent ≥ ((alookup wp.key cfg.watchlist).getD
            WatchCfg.empty).active_cpu.getD 0
      · left; simp [h1, h2, h3]
      · by_cases h4 : now - ((alookup ("proc:" ++ wp.key) st.2).getD 0)
            ≥ cfg.alert_cooldown
        · right
          refine ⟨h4, ⟨⟨"process", wp.key, "Still running: " ++ wp.label,
            "Open for " ++ wp.age_str, wp.age_str⟩, rfl, ?_⟩⟩
          simp [h1, h2, h3, h4]
        · left; simp [h1, h2, h3, h4]
    · left; simp [h1, h2]

/-- C5: an idle-service alert for a cooldown key is emitted only if `now`
minus the ledger's last-fired time for that key (an absent key counting as
epoch, always eligible) is at least `alert_cooldown`, and emitting it stamps
the ledger entry with `now` — for both the container and the process branch.
Consequently a container idle 120 minutes against a 60-minute threshold with
an empty ledger yields exactly one docker alert, and immediately
re-evaluating with the updated ledger yields zero alerts. -/
theorem C5_cooldown_suppression :
    (∀ (cfg : MonitorConfig) (now : ℚ)
        (st : List ServiceAlert × List (String × ℚ)) (c : Container),
        idleDockerStep cfg now st c = st ∨
        (now - ((alookup ("docker:" ++ c.name) st.2).getD 0)
            ≥ cfg.alert_cooldown ∧
         ∃ a : ServiceAlert, a.kind = "docker" ∧
           idleDockerStep cfg now st c
             = (st.1 ++ [a], aset ("docker:" ++ c.name) now st.2))) ∧
    (∀ (cfg : MonitorConfig) (now : ℚ)
        (st : List ServiceAlert × List (String × ℚ)) (wp : WatchedProcess),
        idleProcStep cfg now st wp = st ∨
        (now - ((alookup ("proc:" ++ wp.key) st.2).getD 0)
            ≥ cfg.alert_cooldown ∧
         ∃ a : ServiceAlert, a.kind = "process" ∧
           idleProcStep cfg now st wp
             = (st.1 ++ [a], aset ("proc:" ++ wp.key) now st.2))) ∧
    check_idle_services ⟨[], [], 300, [], 60⟩ 1736944200 [] []
        [⟨"pg", "postgres:16-alpine", "Up 2 hours",
          "2025-01-15 10:30:00 +0000 UTC"⟩]
      = ([⟨"docker", "pg", "Docker: pg",
            "Running for 2h 0m (postgres:16-alpine)", "2h 0m"⟩],
         [("docker:pg", 1736944200)]) ∧
    check_idle_services ⟨[], [], 300, [], 60⟩ 1736944200
        [("docker:pg", 1736944200)] []
        [⟨"pg", "postgres:16-alpine", "Up 2 hours",
          "2025-01-15 10:30:00 +0000 UTC"⟩]
      = ([], [("docker:pg", 1736944200)]) := by
  have hp : parseDockerTs
      (trimChars (("2025-01-15 10:30:00 +0000 UTC").data.take 25))
      = some 1736937000 := by decide
  have hd : _parse_docker_created_at 1736944200 "2025-01-15 10:30:00 +0000 UTC"
      = 120 := by
    rw [_parse_docker_created_at, if_neg (by decide), hp]
    norm_num [pyInt]
  refine ⟨idleDockerStep_shape, idleProcStep_shape, ?_, ?_⟩
  · simp only [check_idle_services]
    rw [if_pos (by decide)]
    simp only [List.foldl, idleDockerStep, hd]
    rw [if_pos (by decide)]
    rw [if_pos (show (1736944200 : ℚ) -
        (alookup ("docker:" ++ "pg") ([] : List (String × ℚ))).getD 0 ≥ 300 by
      norm_num [alookup])]
    decide
  · simp only [check_idle_services]
    rw [if_pos (by decide)]
    simp only [List.foldl, idleDockerStep, hd]
    rw [if_pos (by decide)]
    rw [if_neg (show ¬((1736944200 : ℚ) -
        (alookup ("docker:" ++ "pg")
          [("docker:pg", (1736944200 : ℚ))]).getD 0 ≥ 300) by
      have ha : alookup ("docker:" ++ "pg") [("docker:pg", (1736944200 : ℚ))]
          = some 1736944200 := by decide
      rw [ha]
      norm_num)]

/-! ## C7, C8, C10: suppression in the idle-service evaluator -/

/-- The watched-process loop only ever appends alerts of kind `"process"`. -/
theorem procFold_kinds (cfg : MonitorConfig) (now : ℚ) :
    ∀ (watched : List WatchedProcess)
      (st : List ServiceAlert × List (String × ℚ)),
      (∀ a ∈ st.1, a.kind = "process") →
      ∀ a ∈ (watched.foldl (idleProcStep cfg now) st).1, a.kind = "process" := by
  intro watched
  induction watched with
  | nil => intro st h; simpa using h
  | cons wp rest ih =>
      intro st h
      simp only [List.foldl]
      apply ih
      rcases idleProcStep_shape cfg now st wp with he | ⟨_, a, ha, he⟩
      · rw [he]; exact h
      · rw [he]
        intro b hb
        rcases List.mem_append.mp hb with hb | hb
        · exact h b hb
        · rw [List.mem_singleton] at hb
          subst hb
          exact ha

/-- C7: a watched process past its idle threshold whose watchlist entry sets
an `active_cpu` floor `> 0` that its aggregate CPU meets is skipped: no alert
is emitted and the cooldown ledger is left entirely unchanged (so the alert
is immediately eligible once usage drops). -/
theorem C7_active_cpu_skip :
    (∀ (cfg : MonitorConfig) (now : ℚ)
        (st : List ServiceAlert × List (String × ℚ)) (wp : WatchedProcess)
        (wcfg : WatchCfg) (ac : ℚ),
        alookup wp.key cfg.watchlist = some wcfg →
        0 < wcfg.idle_minutes.getD 0 →
        wp.age_minutes ≥ ((wcfg.idle_minutes.getD 0 : ℤ) : ℚ) →
        wcfg.active_cpu = some ac →
        0 < ac →
        wp.cpu_percent ≥ ac →
        idleProcStep cfg now st wp = st) ∧
    (∀ (cfg : MonitorConfig) (now : ℚ) (led : List (String × ℚ))
        (wp : WatchedProcess) (wcfg : WatchCfg) (ac : ℚ),
        alookup wp.key cfg.watchlist = some wcfg →
        0 < wcfg.idle_minutes.getD 0 →
        wp.age_minutes ≥ ((wcfg.idle_minutes.getD 0 : ℤ) : ℚ) →
        wcfg.active_cpu = some ac →
        0 < ac →
        wp.cpu_percent ≥ ac →
        check_idle_services cfg now led [wp] [] = ([], led)) := by
  have hstep : ∀ (cfg : MonitorConfig) (now : ℚ)
      (st : List ServiceAlert × List (String × ℚ)) (wp : WatchedProcess)
      (wcfg : WatchCfg) (ac : ℚ),
      alookup wp.key cfg.watchlist = some wcfg →
      0 < wcfg.idle_minutes.getD 0 →
      wp.age_minutes ≥ ((wcfg.idle_minutes.getD 0 : ℤ) : ℚ) →
      wcfg.active_cpu = some ac →
      0 < ac →
      wp.cpu_percent ≥ ac →
      idleProcStep cfg now st wp = st := by
    intro cfg now st wp wcfg ac hw hidle hage hac hacpos hcpu
    simp [idleProcStep, hw, not_le.mpr hidle, hage, hac, hacpos, hcpu]
  refine ⟨hstep, ?_⟩
  intro cfg now led wp wcfg ac hw hidle hage hac hacpos hcpu
  simp only [check_idle_services, List.foldl, ite_self]
  exact hstep cfg now ([], led) wp wcfg ac hw hidle hage hac hacpos hcpu

/-- Witness for C7: a `zoom` process open 120 minutes against a 30-minute
threshold with aggregate CPU 8 ≥ the configured floor 5 produces no alert
and leaves the ledger untouched. -/
theorem C7_active_cpu_skip_witness :
    idleProcStep ⟨[], [], 300, [("zoom", ⟨"Zoom", some 30, some 5⟩)], 60⟩ 1000
        ([], [("other", 1)]) ⟨"zoom", "Zoom", "2h 0m", 120, 8⟩
      = ([], [("other", 1)]) ∧
    check_idle_services ⟨[], [], 300, [("zoom", ⟨"Zoom", some 30, some 5⟩)], 60⟩
        1000 [("other", 1)] [⟨"zoom", "Zoom", "2h 0m", 120, 8⟩] []
      = ([], [("other", 1)]) :=
  ⟨C7_active_cpu_skip.1 ⟨[], [], 300, [("zoom", ⟨"Zoom", some 30, some 5⟩)], 60⟩
      1000 ([], [("other", 1)]) ⟨"zoom", "Zoom", "2h 0m", 120, 8⟩
      ⟨"Zoom", some 30, some 5⟩ 5 (by decide) (by decide) (by norm_num) rfl
      (by norm_num) (by norm_num),
   C7_active_cpu_skip.2 ⟨[], [], 300, [("zoom", ⟨"Zoom", some 30, some 5⟩)], 60⟩
      1000 [("other", 1)] ⟨"zoom", "Zoom", "2h 0m", 120, 8⟩
      ⟨"Zoom", some 30, some 5⟩ 5 (by decide) (by decide) (by norm_num) rfl
      (by norm_num) (by norm_num)⟩

/-- C8: a watched process whose watchlist entry has `idle_minutes = 0` never
produces an alert, regardless of age, CPU usage, or ledger state. -/
theorem C8_idle_zero_suppresses :
    (∀ (cfg : MonitorConfig) (now : ℚ)
        (st : List ServiceAlert × List (String × ℚ)) (wp : WatchedProcess)
        (wcfg : WatchCfg),
        alookup wp.key cfg.watchlist = some wcfg →
        wcfg.idle_minutes.getD 0 = 0 →
        idleProcStep cfg now st wp = st) ∧
    (∀ (cfg : MonitorConfig) (now : ℚ) (led : List (String × ℚ))
        (wp : WatchedProcess) (wcfg : WatchCfg),
        alookup wp.key cfg.watchlist = some wcfg →
        wcfg.idle_minutes.getD 0 = 0 →
        check_idle_services cfg now led [wp] [] = ([], led)) := by
  have hstep : ∀ (cfg : MonitorConfig) (now : ℚ)
      (st : List ServiceAlert × List (String × ℚ)) (wp : WatchedProcess)
      (wcfg : WatchCfg),
      alookup wp.key cfg.watchlist = some wcfg →
      wcfg.idle_minutes.getD 0 = 0 →
      idleProcStep cfg now st wp = st := by
    intro cfg now st wp wcfg hw hz
    simp [idleProcStep, hw, hz]
  refine ⟨hstep, ?_⟩
  intro cfg now led wp wcfg hw hz
  simp only [check_idle_services, List.foldl, ite_self]
  exact hstep cfg now ([], led) wp wcfg hw hz

/-- Witness for C8: the `code` entry with `idle_minutes = 0` emits nothing
even for a process open for ten days with an empty ledger. -/
theorem C8_idle_zero_suppresses_witness :
    idleProcStep ⟨[], [], 300, [("code", ⟨"VS Code", some 0, none⟩)], 60⟩ 1000
        ([], []) ⟨"code", "VS Code", "240h 0m", 14400, 0⟩
      = ([], []) ∧
    check_idle_services ⟨[], [], 300, [("code", ⟨"VS Code", some 0, none⟩)], 60⟩
        1000 [] [⟨"code", "VS Code", "240h 0m", 14400, 0⟩] []
      = ([], []) :=
  ⟨C8_idle_zero_suppresses.1 ⟨[], [], 300, [("code", ⟨"VS Code", some 0, none⟩)], 60⟩
      1000 ([], []) ⟨"code", "VS Code", "240h 0m", 14400, 0⟩
      ⟨"VS Code", some 0, none⟩ (by decide) rfl,
   C8_idle_zero_suppresses.2 ⟨[], [], 300, [("code", ⟨"VS Code", some 0, none⟩)], 60⟩
      1000 [] ⟨"code", "VS Code", "240h 0m", 14400, 0⟩
      ⟨"VS Code", some 0, none⟩ (by decide) rfl⟩

/-- C10: with `docker_idle_minutes ≤ 0` the whole container branch is
disabled: the result is as if there were no containers at all, and every
emitted alert is of kind `"process"` (none is a docker alert). -/
theorem C10_docker_branch_disabled :
    ∀ (cfg : MonitorConfig) (now : ℚ) (led : List (String × ℚ))
      (watched : List WatchedProcess) (containers : List Container),
      cfg.docker_idle_minutes ≤ 0 →
      check_idle_services cfg now led watched containers
        = check_idle_services cfg now led watched [] ∧
      ∀ a ∈ (check_idle_services cfg now led watched containers).1,
        a.kind = "process" := by
  intro cfg now led watched containers h
  have hg : ¬cfg.docker_idle_minutes > 0 := not_lt.mpr h
  constructor
  · simp [check_idle_services, hg]
  · simp only [check_idle_services, hg, if_false, List.foldl_nil]
    exact procFold_kinds cfg now watched ([], led) (by simp)

/-- Witness for C10: with `docker_idle_minutes = 0`, a long-running container
is ignored entirely. -/
theorem C10_docker_branch_disabled_witness :
    check_idle_services ⟨[], [], 300, [], 0⟩ 1736944200 [] []
        [⟨"pg", "postgres:16-alpine", "Up 2 hours",
          "2025-01-15 10:30:00 +0000 UTC"⟩]
      = check_idle_services ⟨[], [], 300, [], 0⟩ 1736944200 [] [] [] ∧
    ∀ a ∈ (check_idle_services ⟨[], [], 300, [], 0⟩ 1736944200 [] []
        [⟨"pg", "postgres:16-alpine", "Up 2 hours",
          "2025-01-15 10:30:00 +0000 UTC"⟩]).1,
      a.kind = "process" :=
  C10_docker_branch_disabled ⟨[], [], 300, [], 0⟩ 1736944200 [] []
    [⟨"pg", "postgres:16-alpine", "Up 2 hours",
      "2025-01-15 10:30:00 +0000 UTC"⟩] (by decide)

/-! ## C9: totality of created-at parsing -/

/-- C9: `_parse_docker_created_at` is total (it is a plain function into ℤ);
an empty or unparseable created-at string yields an uptime of zero minutes,
and the result is never negative. -/
theorem C9_parse_created_at_total (now : ℚ) (s : String) :
    (s = "" → _parse_docker_created_at now s = 0) ∧
    (parseDockerTs (trimChars (s.data.take 25)) = none →
      _parse_docker_created_at now s = 0) ∧
    0 ≤ _parse_docker_created_at now s := by
  refine ⟨?_, ?_, ?_⟩
  · intro h
    simp [_parse_docker_created_at, h]
  · intro h
    by_cases he : s = ""
    · simp [_parse_docker_created_at, he]
    · simp [_parse_docker_created_at, he, h]
  · unfold _parse_docker_created_at
    by_cases he : s = ""
    · simp [he]
    · simp only [he, if_false]
      cases hp : parseDockerTs (trimChars (s.data.take 25)) with
      | none => exact le_refl 0
      | some c => exact le_max_left 0 _

/-- Witness for C9: the empty string and a garbage string both yield zero. -/
theorem C9_parse_created_at_total_witness :
    _parse_docker_created_at 0 "" = 0 ∧
    _parse_docker_created_at 0 "not a timestamp" = 0 ∧
    0 ≤ _parse_docker_created_at 0 "not a timestamp" :=
  ⟨(C9_parse_created_at_total 0 "").1 rfl,
   (C9_parse_created_at_total 0 "not a timestamp").2.1 (by decide),
   (C9_parse_created_at_total 0 "not a timestamp").2.2⟩

/-! ## C6: watched-process aggregation -/

theorem matchingProcs_nil (wl : List (String × WatchCfg)) (k : String) :
    matchingProcs wl [] k = [] := rfl

theorem matchingProcs_append (wl : List (String × WatchCfg))
    (seen : List ProcInfo) (p : ProcInfo) (k : String) :
    matchingProcs wl (seen ++ [p]) k =
      matchingProcs wl seen k ++
        (if assignedKey wl p = some k then [p] else []) := by
  by_cases h : assignedKey wl p = some k
  · simp [matchingProcs, List.filter_append, h]
  · simp [matchingProcs, List.filter_append, h]

theorem matchingProcs_ne_nil (wl : List (String × WatchCfg))
    (procs : List ProcInfo) (k : String) :
    matchingProcs wl procs k ≠ [] ↔
      ∃ p ∈ procs, assignedKey wl p = some k := by
  rw [Ne, matchingProcs, List.filter_eq_nil_iff]
  push_neg
  simp

theorem minCT_append (l : List ProcInfo) (p : ProcInfo) (h : l ≠ []) :
    minCT (l ++ [p]) = min (minCT l) p.create_time := by
  cases l with
  | nil => exact absurd rfl h
  | cons q qs => simp [minCT, List.foldl_append]

theorem sumCpu_append (l l' : List ProcInfo) :
    sumCpu (l ++ l') = sumCpu l + sumCpu l' := by
  simp [sumCpu]

theorem scanInv_nil (wl : List (String × WatchCfg)) : ScanInv wl [] [] := by
  refine ⟨by simp, fun k _ => rfl, fun k e hk => ?_⟩
  simp [alookup] at hk

theorem scanStep_inv (wl : List (String × WatchCfg)) (p : ProcInfo)
    (seen : List ProcInfo) (accum : List (String × ScanAccum))
    (h : ScanInv wl seen accum) :
    ScanInv wl (seen ++ [p]) (scanStep wl accum p) := by
  obtain ⟨hnd, hnone, hsome⟩ := h
  cases hm : firstMatch wl (lowerName p) with
  | none =>
      have hred : scanStep wl accum p = accum := by simp [scanStep, hm]
      have hak : assignedKey wl p = none := by simp [assignedKey, hm]
      have hmp : ∀ k, matchingProcs wl (seen ++ [p]) k
          = matchingProcs wl seen k := by
        intro k
        rw [matchingProcs_append]
        simp [hak]
      rw [hred]
      refine ⟨hnd, fun k hk => ?_, fun k e hk => ?_⟩
      · rw [hmp k]; exact hnone k hk
      · rw [hmp k]; exact hsome k e hk
  | some kv =>
      have hak : assignedKey wl p = some kv.1 := by simp [assignedKey, hm]
      have hmp_ne : ∀ k, k ≠ kv.1 →
          matchingProcs wl (seen ++ [p]) k = matchingProcs wl seen k := by
        intro k hk
        rw [matchingProcs_append]
        have hne : ¬(assignedKey wl p = some k) := by
          rw [hak]
          intro hc
          exact hk (Option.some.inj hc).symm
        simp [hne]
      have hmp_eq : matchingProcs wl (seen ++ [p]) kv.1
          = matchingProcs wl seen kv.1 ++ [p] := by
        rw [matchingProcs_append, if_pos hak]
      cases hl : alookup kv.1 accum with
      | none =>
          have hred : scanStep wl accum p
              = accum ++ [(kv.1, ⟨kv.2, p.create_time, p.cpuEff⟩)] := by
            simp [scanStep, hm, hl]
          have hmem : kv.1 ∉ accum.map Prod.fst :=
            (alookup_eq_none_iff kv.1 accum).mp hl
          rw [hred]
          refine ⟨?_, fun k hk => ?_, fun k e hk => ?_⟩
          · rw [List.map_append]
            rw [List.nodup_append]
            refine ⟨hnd, List.nodup_singleton _, ?_⟩
            intro x hx hx'
            simp only [List.map_cons, List.map_nil, List.mem_singleton] at hx'
            subst hx'
            exact hmem hx
          · rw [alookup_append] at hk
            cases hka : alookup k accum with
            | some e0 => rw [hka] at hk; simp at hk
            | none =>
                rw [hka] at hk
                simp only [Option.elim, alookup] at hk
                by_cases hkk : kv.1 = k
                · rw [if_pos hkk] at hk; cases hk
                · rw [hmp_ne k (fun hc => hkk hc.symm)]
                  exact hnone k hka
          · rw [alookup_append] at hk
            cases hka : alookup k accum with
            | some e0 =>
                rw [hka] at hk
                simp only [Option.elim, Option.some.injEq] at hk
                subst hk
                have hkk : k ≠ kv.1 := by
                  intro hc
                  rw [hc, hl] at hka
                  cases hka
                rw [hmp_ne k hkk]
                exact hsome k e0 hka
            | none =>
                rw [hka] at hk
                simp only [Option.elim, alookup] at hk
                by_cases hkk : kv.1 = k
                · rw [if_pos hkk] at hk
                  subst hkk
                  injection hk with he
                  subst he
                  have hms : matchingProcs wl seen kv.1 = [] := hnone kv.1 hka
                  rw [hmp_eq, hms]
                  refine ⟨by simp, ?_, ?_⟩
                  · simp [minCT]
                  · simp [sumCpu]
                · rw [if_neg hkk] at hk; cases hk
      | some e0 =>
          have hred : scanStep wl accum p
              = aset kv.1 ⟨e0.cfg, min e0.create_time p.create_time,
                  e0.cpu_total + p.cpuEff⟩ accum := by
            simp [scanStep, hm, hl]
          rw [hred]
          refine ⟨?_, fun k hk => ?_, fun k e hk => ?_⟩
          · rw [map_fst_aset_of_lookup kv.1 _ accum e0 hl]
            exact hnd
          · have hkk : k ≠ kv.1 := by
              intro hc
              rw [hc, alookup_aset_self] at hk
              cases hk
            rw [alookup_aset_ne k kv.1 _ (fun hc => hkk hc.symm)] at hk
            rw [hmp_ne k hkk]
            exact hnone k hk
          · by_cases hkk : k = kv.1
            · subst hkk
              rw [alookup_aset_self] at hk
              injection hk with he
              subst he
              obtain ⟨hne, hct, hcpu⟩ := hsome kv.1 e0 hl
              rw [hmp_eq]
              refine ⟨by simp, ?_, ?_⟩
              · rw [minCT_append _ _ hne, ← hct]
              · rw [sumCpu_append, ← hcpu]
                simp [sumCpu]
            · rw [alookup_aset_ne k kv.1 _ (fun hc => hkk hc.symm)] at hk
              rw [hmp_ne k hkk]
              exact hsome k e hk

theorem scanAccum_inv (wl : List (String × WatchCfg)) :
    ∀ (procs seen : List ProcInfo) (accum : List (String × ScanAccum)),
      ScanInv wl seen accum →
      ScanInv wl (seen ++ procs) (scanAccum wl procs accum) := by
  intro procs
  induction procs with
  | nil => intro seen accum h; simpa [scanAccum] using h
  | cons p rest ih =>
      intro seen accum h
      have h2 := ih (seen ++ [p]) (scanStep wl accum p) (scanStep_inv wl p seen accum h)
      simpa [scanAccum, List.append_assoc] using h2

theorem scan_inv (wl : List (String × WatchCfg)) (procs : List ProcInfo) :
    ScanInv wl procs (scanAccum wl procs []) := by
  have h := scanAccum_inv wl procs [] [] (scanInv_nil wl)
  simpa using h

/-- C6: the scan emits exactly one `WatchedProcess` per watchlist key that at
least one process was counted against (each process counting against only
the first watchlist key whose string is a substring of its lower-cased
name); the entry's age is computed from the minimum creation time and its
CPU is the sum of the CPU percentages of the processes counted against the
key.  In particular, processes `Zoom` (created 4000, CPU 2) and
`zoom-helper` (created 1000, CPU 3) against watchlist key `zoom` yield the
single record with age from the older process and CPU 5. -/
theorem C6_scan_aggregation :
    (∀ (wl : List (String × WatchCfg)) (now : ℚ) (procs : List ProcInfo),
        ((scan_watched_processes wl now procs).map WatchedProcess.key).Nodup) ∧
    (∀ (wl : List (String × WatchCfg)) (now : ℚ) (procs : List ProcInfo)
        (k : String),
        (∃ w ∈ scan_watched_processes wl now procs, w.key = k) ↔
        (∃ p ∈ procs, assignedKey wl p = some k)) ∧
    (∀ (wl : List (String × WatchCfg)) (now : ℚ) (procs : List ProcInfo)
        (w : WatchedProcess), w ∈ scan_watched_processes wl now procs →
        w.age_minutes = (now - minCT (matchingProcs wl procs w.key)) / 60 ∧
        w.cpu_percent = sumCpu (matchingProcs wl procs w.key)) ∧
    scan_watched_processes [("zoom", ⟨"Zoom", some 30, some 5⟩)] 7000
        [⟨some "Zoom", 4000, some 2⟩, ⟨some "zoom-helper", 1000, some 3⟩]
      = [⟨"zoom", "Zoom", "1h 40m", 100, 5⟩] := by
  refine ⟨?_, ?_, ?_, ?_⟩
  · intro wl now procs
    have hkey : (scan_watched_processes wl now procs).map WatchedProcess.key
        = (scanAccum wl procs []).map Prod.fst := by
      rw [scan_watched_processes, List.map_map]
      rfl
    rw [hkey]
    exact (scan_inv wl procs).1
  · intro wl now procs k
    constructor
    · rintro ⟨w, hw, rfl⟩
      rw [scan_watched_processes] at hw
      rcases List.mem_map.mp hw with ⟨kv, hkv, rfl⟩
      have hlk := alookup_of_mem_nodup (scan_inv wl procs).1 hkv
      have hne := ((scan_inv wl procs).2.2 kv.1 kv.2 hlk).1
      exact (matchingProcs_ne_nil wl procs kv.1).mp hne
    · intro hp
      have hne := (matchingProcs_ne_nil wl procs k).mpr hp
      cases hlk : alookup k (scanAccum wl procs []) with
      | none => exact absurd ((scan_inv wl procs).2.1 k hlk) hne
      | some e =>
          have hkm : k ∈ (scanAccum wl procs []).map Prod.fst := by
            by_contra hnm
            rw [(alookup_eq_none_iff k _).mpr hnm] at hlk
            cases hlk
          rcases List.mem_map.mp hkm with ⟨kv, hkv, rfl⟩
          exact ⟨mkWatched now kv, List.mem_map_of_mem _ hkv, rfl⟩
  · intro wl now procs w hw
    rw [scan_watched_processes] at hw
    rcases List.mem_map.mp hw with ⟨kv, hkv, rfl⟩
    have hlk := alookup_of_mem_nodup (scan_inv wl procs).1 hkv
    obtain ⟨hne, hct, hcpu⟩ := (scan_inv wl procs).2.2 kv.1 kv.2 hlk
    constructor
    · show (now - kv.2.create_time) / 60
          = (now - minCT (matchingProcs wl procs kv.1)) / 60
      rw [← hct]
    · show kv.2.cpu_total = sumCpu (matchingProcs wl procs kv.1)
      exact hcpu
  · have h1 : scanStep [("zoom", (⟨"Zoom", some 30, some 5⟩ : WatchCfg))] []
        ⟨some "Zoom", 4000, some 2⟩
        = [("zoom", ⟨⟨"Zoom", some 30, some 5⟩, 4000, 2⟩)] := by decide
    have h2 : scanStep [("zoom", (⟨"Zoom", some 30, some 5⟩ : WatchCfg))]
        [("zoom", ⟨⟨"Zoom", some 30, some 5⟩, 4000, 2⟩)]
        ⟨some "zoom-helper", 1000, some 3⟩
        = [("zoom", ⟨⟨"Zoom", some 30, some 5⟩, 1000, 5⟩)] := by
      have hfm2 : firstMatch [("zoom", (⟨"Zoom", some 30, some 5⟩ : WatchCfg))]
          (lowerName ⟨some "zoom-helper", 1000, some 3⟩)
          = some ("zoom", ⟨"Zoom", some 30, some 5⟩) := by decide
      simp [scanStep, hfm2, alookup, aset, ProcInfo.cpuEff]
      norm_num [min_def]
    have hs : scanAccum [("zoom", (⟨"Zoom", some 30, some 5⟩ : WatchCfg))]
        [⟨some "Zoom", 4000, some 2⟩, ⟨some "zoom-helper", 1000, some 3⟩] []
        = [("zoom", ⟨⟨"Zoom", some 30, some 5⟩, 1000, 5⟩)] := by
      simp [scanAccum, h1, h2]
    rw [scan_watched_processes, hs]
    simp only [List.map_cons, List.map_nil, mkWatched]
    have hm : pyInt (pyMod 100 60) = 40 := by norm_num [pyInt, pyMod]
    norm_num [hm]
    decide

/-- Witness for C6: the aggregate facts applied on the two-process `zoom`
scenario. -/
theorem C6_scan_aggregation_witness :
    ((∃ w ∈ scan_watched_processes [("zoom", ⟨"Zoom", some 30, some 5⟩)] 7000
        [⟨some "Zoom", 4000, some 2⟩, ⟨some "zoom-helper", 1000, some 3⟩],
        w.key = "zoom") ↔
      (∃ p ∈ [(⟨some "Zoom", 4000, some 2⟩ : ProcInfo),
              ⟨some "zoom-helper", 1000, some 3⟩],
        assignedKey [("zoom", ⟨"Zoom", some 30, some 5⟩)] p = some "zoom")) ∧
    ((⟨"zoom", "Zoom", "1h 40m", 100, 5⟩ : WatchedProcess).age_minutes
        = (7000 - minCT (matchingProcs [("zoom", ⟨"Zoom", some 30, some 5⟩)]
            [⟨some "Zoom", 4000, some 2⟩, ⟨some "zoom-helper", 1000, some 3⟩]
            (⟨"zoom", "Zoom", "1h 40m", 100, 5⟩ : WatchedProcess).key)) / 60 ∧
      (⟨"zoom", "Zoom", "1h 40m", 100, 5⟩ : WatchedProcess).cpu_percent
        = sumCpu (matchingProcs [("zoom", ⟨"Zoom", some 30, some 5⟩)]
            [⟨some "Zoom", 4000, some 2⟩, ⟨some "zoom-helper", 1000, some 3⟩]
            (⟨"zoom", "Zoom", "1h 40m", 100, 5⟩ : WatchedProcess).key)) :=
  ⟨C6_scan_aggregation.2.1 [("zoom", ⟨"Zoom", some 30, some 5⟩)] 7000
      [⟨some "Zoom", 4000, some 2⟩, ⟨some "zoom-helper", 1000, some 3⟩] "zoom",
   C6_scan_aggregation.2.2.1 [("zoom", ⟨"Zoom", some 30, some 5⟩)] 7000
      [⟨some "Zoom", 4000, some 2⟩, ⟨some "zoom-helper", 1000, some 3⟩]
      ⟨"zoom", "Zoom", "1h 40m", 100, 5⟩
      (by rw [C6_scan_aggregation.2.2.2]; exact List.mem_singleton.mpr rfl)⟩

end Sysmon
